import Mathlib

/-!
Verification development for the posthog-session-insights repository.

Python strings are modelled as lists of code points (`PyStr`), Python
dicts carrying event properties as association lists with first-match
lookup, instants and durations as integer numbers of seconds, and
Python ints as `Int`.  Fallible code is modelled with `Option`/`Except`.
The Python built-in `str.upper`/`str.lower` on a single code point is
modelled by `Char.toUpper`/`Char.toLower` (the basic-latin range, which
covers every alphabet character produced by the pipeline).
-/

namespace PSI

/-- Model of a Python `str`: a list of Unicode code points. -/
abbrev PyStr := List Char

/-- Python substring containment `needle in hay`. -/
def strIn : PyStr → PyStr → Bool
  | needle, [] => needle.isEmpty
  | needle, c :: t => needle.isPrefixOf (c :: t) || strIn needle t

/-- Python `dict.get(key)` over an association list (dict keys are unique,
so first-match lookup agrees with the dict). -/
def lookupProp (props : List (PyStr × PyStr)) (key : PyStr) : Option PyStr :=
  (props.find? (fun p => decide (p.1 = key))).map (fun p => p.2)

/-- Python truthiness of an optional string: `None` and the empty string
are falsy. -/
def strTruthy : Option PyStr → Bool
  | none => false
  | some s => !s.isEmpty

/-- Python `x or d` for an optional string `x` with a string default. -/
def pyOrStr (x : Option PyStr) (d : PyStr) : PyStr :=
  match x with
  | some s => if s.isEmpty then d else s
  | none => d

/-- Value of an optional string, empty when absent. -/
def strVal : Option PyStr → PyStr
  | none => []
  | some s => s

/-- The single-quote code point, used by label templates. -/
def squote : Char := Char.ofNat 39

/-- Python slicing `s[:k]` for an arbitrary integer bound `k`; a negative
bound counts from the end of the string and clamps at zero. -/
def pySliceTo (s : PyStr) (k : Int) : PyStr :=
  if 0 ≤ k then s.take k.toNat else s.take (s.length - k.natAbs)

/-- Function `truncate_text` from app/utils.py: return the text unchanged
when it fits, otherwise `text[: max_length - 3] + "..."`. -/
def truncateText (text : PyStr) (maxLength : Int) : PyStr :=
  if (text.length : Int) ≤ maxLength then text
  else pySliceTo text (maxLength - 3) ++ ("...".data)

/-- Function `capitalize_first_letter` from app/utils.py: empty text is
returned unchanged, otherwise `text[0].upper() + text[1:]`. -/
def capitalizeFirstLetter (text : PyStr) : PyStr :=
  match text with
  | [] => []
  | c :: rest => c.toUpper :: rest

/-- Function `humanize_snake_case_string` from app/utils.py:
`text.replace("_", " ").lower()`. -/
def humanizeSnakeCaseString (text : PyStr) : PyStr :=
  (text.map (fun c => if c = '_' then ' ' else c)).map Char.toLower

/-- Enum `EventType` from app/models.py (identical copy in
app/services/enrichment_services.py). -/
inductive EventType where
  | pageview
  | click
  | navigation
  | custom
  | unknown
deriving DecidableEq

/-- Enum `ActionType` from app/models.py (identical copy in
app/services/enrichment_services.py). -/
inductive ActionType where
  | view
  | leave
  | click
  | rage_click
  | submit
  | change
  | navigate
  | unknown
deriving DecidableEq

/-- Class `EventClassification` from app/models.py. -/
structure EventClassification where
  event_type : EventType
  action_type : ActionType
deriving DecidableEq

/-- Function `infer_action_from_custom_event`, identical in
app/services/event_parsing.py and app/services/enrichment_services.py:
keyword heuristic over the lowercased event name, first match wins. -/
def inferActionFromCustomEvent (event_name : PyStr) : ActionType :=
  let event_lower := event_name.map Char.toLower
  if [("click".data), ("select".data), ("choose".data)].any (fun k => strIn k event_lower) then
    ActionType.click
  else if [("submit".data), ("complete".data), ("finish".data)].any (fun k => strIn k event_lower) then
    ActionType.submit
  else if [("start".data), ("open".data), ("view".data), ("navigate".data)].any (fun k => strIn k event_lower) then
    ActionType.navigate
  else
    ActionType.click

/-- Function `_classify_autocapture`, identical in both modules:
`properties.get("$event_type", "click")` dispatched over
click/submit/change with a final catch-all. -/
def classifyAutocapture (properties : List (PyStr × PyStr)) : EventClassification :=
  let autocapture_type := (lookupProp properties ("$event_type".data)).getD ("click".data)
  if autocapture_type = ("click".data) then
    EventClassification.mk EventType.click ActionType.click
  else if autocapture_type = ("submit".data) then
    EventClassification.mk EventType.click ActionType.submit
  else if autocapture_type = ("change".data) then
    EventClassification.mk EventType.click ActionType.change
  else
    EventClassification.mk EventType.click ActionType.click

/-- Function `classify_event` from app/services/event_parsing.py,
lines 97 to 122. -/
def classifyEventParsing (event_name : PyStr) (properties : List (PyStr × PyStr)) : EventClassification :=
  if event_name = ("$pageview".data) then
    EventClassification.mk EventType.pageview ActionType.view
  else if event_name = ("$pageleave".data) then
    EventClassification.mk EventType.navigation ActionType.leave
  else if event_name = ("$rageclick".data) then
    EventClassification.mk EventType.click ActionType.rage_click
  else if event_name = ("$autocapture".data) then
    classifyAutocapture properties
  else if !(("$".data).isPrefixOf event_name) then
    EventClassification.mk EventType.custom (inferActionFromCustomEvent event_name)
  else
    EventClassification.mk EventType.unknown ActionType.unknown

/-- Function `classify_event` from app/services/enrichment_services.py,
lines 155 to 182; it carries a duplicated (dead) `$pageview` match arm
between the `$rageclick` and `$autocapture` arms. -/
def classifyEventEnrichment (event_name : PyStr) (properties : List (PyStr × PyStr)) : EventClassification :=
  if event_name = ("$pageview".data) then
    EventClassification.mk EventType.pageview ActionType.view
  else if event_name = ("$pageleave".data) then
    EventClassification.mk EventType.navigation ActionType.leave
  else if event_name = ("$rageclick".data) then
    EventClassification.mk EventType.click ActionType.rage_click
  else if event_name = ("$pageview".data) then
    EventClassification.mk EventType.pageview ActionType.view
  else if event_name = ("$autocapture".data) then
    classifyAutocapture properties
  else if !(("$".data).isPrefixOf event_name) then
    EventClassification.mk EventType.custom (inferActionFromCustomEvent event_name)
  else
    EventClassification.mk EventType.unknown ActionType.unknown

/-- Decision table of spec section 4.2, written from the words of the
spec (for the refinement claim C8): eight rows, first match wins, with
the custom-event heuristic in the stated priority order. -/
def classifySpecTable (event_name : PyStr) (properties : List (PyStr × PyStr)) : EventClassification :=
  if event_name = ("$pageview".data) then
    EventClassification.mk EventType.pageview ActionType.view
  else if event_name = ("$pageleave".data) then
    EventClassification.mk EventType.navigation ActionType.leave
  else if event_name = ("$rageclick".data) then
    EventClassification.mk EventType.click ActionType.rage_click
  else if event_name = ("$autocapture".data) ∧ lookupProp properties ("$event_type".data) = some ("submit".data) then
    EventClassification.mk EventType.click ActionType.submit
  else if event_name = ("$autocapture".data) ∧ lookupProp properties ("$event_type".data) = some ("change".data) then
    EventClassification.mk EventType.click ActionType.change
  else if event_name = ("$autocapture".data) then
    EventClassification.mk EventType.click ActionType.click
  else if !(("$".data).isPrefixOf event_name) then
    EventClassification.mk EventType.custom (inferActionFromCustomEvent event_name)
  else
    EventClassification.mk EventType.unknown ActionType.unknown

/-- Class `PageInfo` from app/models.py. -/
structure PageInfo where
  page_path : PyStr
  page_title : PyStr
deriving DecidableEq

/-- Class `ParsedElements` from app/models.py: attributes keep dict
insertion order as an association list. -/
structure ParsedElements where
  element_type : Option PyStr := none
  element_text : Option PyStr := none
  attributes : List (PyStr × PyStr) := []
  hierarchy : List PyStr := []
deriving DecidableEq

/-- Constant `SEMANTIC_LABEL_MAX_LENGTH` from
app/services/enrichment_services.py. -/
def SEMANTIC_LABEL_MAX_LENGTH : Int := 150

/-- Constant `DEFAULT_CUSTOM_EVENT_TEMPLATES` from
app/services/enrichment_services.py. -/
def DEFAULT_CUSTOM_EVENT_TEMPLATES : List (PyStr × PyStr) :=
  [(("product_clicked".data), ("Selected product: {product_name}".data)),
   (("plan_upgrade_started".data), ("Started plan upgrade".data)),
   (("plan_upgrade_completed".data), ("Completed plan upgrade to {plan_name}".data)),
   (("form_submitted".data), ("Submitted {form_name} form".data))]

/-- Constant `DEFAULT_ELEMENT_ENRICHMENT_RULES` from
app/services/enrichment_services.py. -/
def DEFAULT_ELEMENT_ENRICHMENT_RULES : List (PyStr × PyStr) :=
  [(("nav".data), ("navigation {base_type}".data)),
   (("product-id".data), ("product card".data)),
   (("product-name".data), ("product card".data)),
   (("form-id".data), ("{base_type} in form".data))]

/-- Python `str.replace` restricted to what the enrichment rules use:
replace every non-overlapping occurrence of `needle`, left to right. -/
def replaceSub (needle repl : PyStr) : PyStr → PyStr
  | [] => []
  | c :: rest =>
    if needle ≠ [] ∧ needle.isPrefixOf (c :: rest) then
      repl ++ replaceSub needle repl (rest.drop (needle.length - 1))
    else
      c :: replaceSub needle repl rest
termination_by s => s.length
decreasing_by
  · simp only [List.length_drop, List.length_cons]
    omega
  · simp only [List.length_cons]
    omega

/-- Rendering `template.format(base_type=...)` for an element enrichment
rule: substitute the `base_type` placeholder.  (A rule template holding
any other placeholder would raise in Python; the model covers templates
over the `base_type` placeholder only, which includes the defaults.) -/
def formatBaseType (template baseType : PyStr) : PyStr :=
  replaceSub ("{base_type}".data) baseType template

/-- Class `SemanticLabelBuilder` from app/services/enrichment_services.py:
the configuration state set up by its `__init__`. -/
structure SemanticLabelBuilder where
  enrichment_rules : List (PyStr × PyStr) := DEFAULT_ELEMENT_ENRICHMENT_RULES
  custom_templates : List (PyStr × PyStr) := DEFAULT_CUSTOM_EVENT_TEMPLATES
  max_length : Int := SEMANTIC_LABEL_MAX_LENGTH

/-- Modelled from the spec: the Python built-in `str.format(**properties)`
used by `_build_custom_label` (its implementation is the interpreter, not
repository code).  It is modelled as an arbitrary function returning
`none` exactly when the template references a missing property (the
`KeyError` case, which per spec section 7 falls back to the humanized
name).  Every theorem below holds for every such function. -/
def TemplateFormatFn : Type := PyStr → List (PyStr × PyStr) → Option PyStr

/-- Method `SemanticLabelBuilder._enrich_element_type`: scan the element
attributes in insertion order; the first attribute name present in the
enrichment-rule map selects the rule template. -/
def enrichLoop (rules : List (PyStr × PyStr)) (baseType : PyStr) : List (PyStr × PyStr) → Option PyStr
  | [] => none
  | a :: rest =>
    match lookupProp rules a.1 with
    | some template => some (formatBaseType template baseType)
    | none => enrichLoop rules baseType rest

/-- Method `SemanticLabelBuilder._enrich_element_type` (entry point). -/
def enrichElementType (b : SemanticLabelBuilder) (element_info : ParsedElements) : PyStr :=
  let baseType := pyOrStr element_info.element_type ("element".data)
  match enrichLoop b.enrichment_rules baseType element_info.attributes with
  | some enriched => enriched
  | none => baseType

/-- Method `SemanticLabelBuilder._build_pageview_label`. -/
def buildPageviewLabel (page_info : PageInfo) : PyStr :=
  ("viewed ".data) ++ page_info.page_title

/-- Method `SemanticLabelBuilder._build_click_label`. -/
def buildClickLabel (b : SemanticLabelBuilder) (element_info : ParsedElements) (page_info : PageInfo) : PyStr :=
  if strTruthy element_info.element_text then
    ("clicked ".data) ++ [squote] ++ strVal element_info.element_text ++ [squote, ' ']
      ++ enrichElementType b element_info
  else
    ("clicked ".data) ++ pyOrStr element_info.element_type ("element".data)
      ++ (" on ".data) ++ page_info.page_title

/-- Method `SemanticLabelBuilder._build_rage_click_label`. -/
def buildRageClickLabel (element_info : ParsedElements) (page_info : PageInfo) : PyStr :=
  if strTruthy element_info.element_text then
    ("rage-clicked ".data) ++ [squote] ++ strVal element_info.element_text ++ [squote, ' ']
      ++ pyOrStr element_info.element_type ("element".data)
  else if strTruthy element_info.element_type then
    ("rage-clicked ".data) ++ strVal element_info.element_type
      ++ (" on ".data) ++ page_info.page_title
  else
    ("rage-clicked on ".data) ++ page_info.page_title

/-- Method `SemanticLabelBuilder._build_navigation_label`. -/
def buildNavigationLabel (page_info : PageInfo) : PyStr :=
  ("left ".data) ++ page_info.page_title

/-- Method `SemanticLabelBuilder._build_custom_label`: configured template
when present and renderable, otherwise the humanized event name. -/
def buildCustomLabel (b : SemanticLabelBuilder) (fmt : TemplateFormatFn)
    (event_name : Option PyStr) (properties : List (PyStr × PyStr)) : PyStr :=
  if !(strTruthy event_name) then
    ("custom event".data)
  else
    let n := strVal event_name
    match lookupProp b.custom_templates n with
    | some template =>
      match fmt template properties with
      | some rendered => rendered
      | none => humanizeSnakeCaseString n
    | none => humanizeSnakeCaseString n

/-- Method `SemanticLabelBuilder._build_fallback_label`. -/
def buildFallbackLabel (page_info : PageInfo) : PyStr :=
  ("event on ".data) ++ page_info.page_title

/-- Method `SemanticLabelBuilder.build` from
app/services/enrichment_services.py lines 233 to 273: dispatch on the
`(event_type, action_type)` pair in source order, then truncate with the
module constant `SEMANTIC_LABEL_MAX_LENGTH` (NOT the configured
`max_length` field, which the source never reads here) and capitalize
the first code point. -/
def SemanticLabelBuilder.build (b : SemanticLabelBuilder) (fmt : TemplateFormatFn)
    (event_type : EventType) (action_type : ActionType)
    (page_info : PageInfo) (element_info : ParsedElements)
    (event_name : Option PyStr := none) (properties : List (PyStr × PyStr) := []) : PyStr :=
  let label :=
    if event_type = EventType.pageview then
      buildPageviewLabel page_info
    else if action_type = ActionType.rage_click then
      buildRageClickLabel element_info page_info
    else if event_type = EventType.click then
      buildClickLabel b element_info page_info
    else if event_type = EventType.navigation ∧ action_type = ActionType.leave then
      buildNavigationLabel page_info
    else if event_type = EventType.custom then
      buildCustomLabel b fmt event_name properties
    else
      buildFallbackLabel page_info
  capitalizeFirstLetter (truncateText label SEMANTIC_LABEL_MAX_LENGTH)

/-- Class `EnrichedEvent` from app/models.py (the fields the services
under verification read; the opaque JSON `context` blob and the row ids
are elided).  Instants are integer seconds. -/
structure EnrichedEvent where
  raw_event_id : Nat := 0
  user_id : PyStr := []
  session_id : PyStr := []
  timestamp : Int := 0
  event_name : PyStr := []
  event_type : EventType
  action_type : Option ActionType := none
  semantic_label : PyStr := []
  page_path : Option PyStr := none
  page_title : Option PyStr := none
  element_type : Option PyStr := none
  element_text : Option PyStr := none
  sequence_number : Option Int := none
deriving DecidableEq

/-- Loop of `generate_events_summary` from app/services/context_services.py
collecting unique non-empty page titles in first-seen order; the break
check `len(unique_pages) >= SETTINGS.pages_in_summary_limit` runs after a
possible append. -/
def collectUniquePages (limit : Int) (acc : List PyStr) : List EnrichedEvent → List PyStr
  | [] => acc
  | e :: rest =>
    let acc2 :=
      if strTruthy e.page_title ∧ strVal e.page_title ∉ acc then
        acc ++ [strVal e.page_title]
      else
        acc
    if limit ≤ (acc2.length : Int) then acc2 else collectUniquePages limit acc2 rest

/-- Pageview events of a list (`event_type == EventType.pageview`). -/
def pageViewsOf (events : List EnrichedEvent) : List EnrichedEvent :=
  events.filter (fun e => decide (e.event_type = EventType.pageview))

/-- Click events of a list (`event_type == EventType.click`). -/
def clicksOf (events : List EnrichedEvent) : List EnrichedEvent :=
  events.filter (fun e => decide (e.event_type = EventType.click))

/-- Rage-click events of a list (`action_type == ActionType.rage_click`). -/
def rageClicksOf (events : List EnrichedEvent) : List EnrichedEvent :=
  events.filter (fun e => decide (e.action_type = some ActionType.rage_click))

/-- Custom events of a list (`event_type == EventType.custom`). -/
def customEventsOf (events : List EnrichedEvent) : List EnrichedEvent :=
  events.filter (fun e => decide (e.event_type = EventType.custom))

/-- Unique page titles the summary reports, collected from the pageview
events only. -/
def uniquePagesOf (limit : Int) (events : List EnrichedEvent) : List PyStr :=
  collectUniquePages limit [] (pageViewsOf events)

/-- Summary fragments of `generate_events_summary`: each fragment is
emitted only when its underlying list is non-empty. -/
def summaryParts (limit : Int) (events : List EnrichedEvent) : List PyStr :=
  (if uniquePagesOf limit events ≠ [] then
    [("Viewed ".data) ++ (Nat.repr (pageViewsOf events).length).data
      ++ (" pages including ".data)
      ++ List.intercalate (", ".data) (uniquePagesOf limit events)]
   else [])
  ++ (if clicksOf events ≠ [] then
    [("Clicked ".data) ++ (Nat.repr (clicksOf events).length).data ++ (" times".data)]
   else [])
  ++ (if rageClicksOf events ≠ [] then
    [("Rage-clicked ".data) ++ (Nat.repr (rageClicksOf events).length).data
      ++ (" times (frustration detected)".data)]
   else [])
  ++ (if customEventsOf events ≠ [] then
    [("Triggered ".data) ++ (Nat.repr (customEventsOf events).length).data
      ++ (" custom events".data)]
   else [])

/-- Function `generate_events_summary` from
app/services/context_services.py lines 39 to 83, with the configured
`pages_in_summary_limit` (default 3) passed explicitly. -/
def generateEventsSummary (limit : Int) (events : List EnrichedEvent) : PyStr :=
  if events.isEmpty then
    ("No activity recorded".data)
  else
    let parts := summaryParts limit events
    let parts2 := if parts = [] then [("No significant activity".data)] else parts
    let summary := List.intercalate (". ".data) parts2
    if !((".".data).isSuffixOf summary) then summary ++ (".".data) else summary

/-- Class `SessionContext` from app/models.py: the read-only session
projection used by pattern detection.  The derived `duration` is an
optional whole number of seconds. -/
structure SessionContext where
  session_id : PyStr := []
  user_id : PyStr := []
  started_at : Int := 0
  ended_at : Option Int := none
  duration : Option Int := none
  event_count : Int := 0
  page_views_count : Int := 0
  clicks_count : Int := 0
  first_page : Option PyStr := none
  last_page : Option PyStr := none
  is_active : Bool := true
deriving DecidableEq

/-- Property `SessionContext.duration_seconds` from app/models.py lines
182 to 187: `if self.duration:` is a Python truthiness test, so a zero
duration yields `None` exactly like a missing one. -/
def SessionContext.durationSeconds (s : SessionContext) : Option Int :=
  match s.duration with
  | some d => if d ≠ 0 then some d else none
  | none => none

/-- Class `EventFilter` from app/services/pattern_detection.py.  The
source field `page_path_prefix` is spelled `page_path_pref` here. -/
structure EventFilter where
  event_type : Option EventType := none
  action_type : Option ActionType := none
  page_path_pref : Option PyStr := none
  page_path_equals : Option PyStr := none
  semantic_contains : Option PyStr := none
deriving DecidableEq

/-- Method `EventFilter.apply`: the five optional conjunctive conditions,
applied as successive list filters exactly as in the source. -/
def EventFilter.apply (f : EventFilter) (events : List EnrichedEvent) : List EnrichedEvent :=
  let r1 := match f.event_type with
    | some t => events.filter (fun e => decide (e.event_type = t))
    | none => events
  let r2 := match f.action_type with
    | some a => r1.filter (fun e => decide (e.action_type = some a))
    | none => r1
  let r3 := match f.page_path_pref with
    | some p => r2.filter (fun e => p.isPrefixOf (strVal e.page_path))
    | none => r2
  let r4 := match f.page_path_equals with
    | some p => r3.filter (fun e => decide (e.page_path = some p))
    | none => r3
  match f.semantic_contains with
  | some s => r4.filter (fun e => strIn (s.map Char.toLower) (e.semantic_label.map Char.toLower))
  | none => r4

/-- Class `SessionFilter` from app/services/pattern_detection.py.
Duration bounds are integer seconds. -/
structure SessionFilter where
  min_duration_seconds : Option Int := none
  max_duration_seconds : Option Int := none
  min_events : Option Int := none
  max_events : Option Int := none
  min_page_views : Option Int := none
  max_page_views : Option Int := none
deriving DecidableEq

/-- Line 41 of the source: `if self.min_duration_seconds and
(session.duration_seconds or 0) < self.min_duration_seconds`.  A bound of
zero is falsy and deactivates the check. -/
def failMinDuration (f : SessionFilter) (s : SessionContext) : Bool :=
  match f.min_duration_seconds with
  | some b => decide (b ≠ 0) && decide ((s.durationSeconds.getD 0) < b)
  | none => false

/-- Line 43 of the source: `if self.max_duration_seconds and
(session.duration_seconds or float("inf")) > self.max_duration_seconds`.
A falsy duration (missing or zero) compares as infinity. -/
def failMaxDuration (f : SessionFilter) (s : SessionContext) : Bool :=
  match f.max_duration_seconds with
  | some b =>
    decide (b ≠ 0) &&
      (match s.durationSeconds with
       | some d => if d = 0 then true else decide (b < d)
       | none => true)
  | none => false

/-- Line 45 of the source: `if self.min_events and session.event_count <
self.min_events`. -/
def failMinEvents (f : SessionFilter) (s : SessionContext) : Bool :=
  match f.min_events with
  | some b => decide (b ≠ 0) && decide (s.event_count < b)
  | none => false

/-- Line 47 of the source: `if self.max_events and session.event_count >
self.max_events`. -/
def failMaxEvents (f : SessionFilter) (s : SessionContext) : Bool :=
  match f.max_events with
  | some b => decide (b ≠ 0) && decide (b < s.event_count)
  | none => false

/-- Line 49 of the source: `if self.min_page_views and
session.page_views_count < self.min_page_views`. -/
def failMinPageViews (f : SessionFilter) (s : SessionContext) : Bool :=
  match f.min_page_views with
  | some b => decide (b ≠ 0) && decide (s.page_views_count < b)
  | none => false

/-- Line 51 of the source: `if self.max_page_views and
session.page_views_count > self.max_page_views`. -/
def failMaxPageViews (f : SessionFilter) (s : SessionContext) : Bool :=
  match f.max_page_views with
  | some b => decide (b ≠ 0) && decide (b < s.page_views_count)
  | none => false

/-- Method `SessionFilter.matches` from app/services/pattern_detection.py
lines 40 to 53: six early-return checks, then true. -/
def SessionFilter.matches (f : SessionFilter) (s : SessionContext) : Bool :=
  if failMinDuration f s then false
  else if failMaxDuration f s then false
  else if failMinEvents f s then false
  else if failMaxEvents f s then false
  else if failMinPageViews f s then false
  else if failMaxPageViews f s then false
  else true

/-- Severity enum from app/models.py. -/
inductive Severity where
  | low
  | medium
  | high
deriving DecidableEq

/-- Sort key `e.sequence_number or 0` used by `PatternRule.matches`. -/
def seqKey (e : EnrichedEvent) : Int :=
  e.sequence_number.getD 0

/-- Stable insertion of an event into a list sorted by sequence key: the
new element goes before the first element with a key not below its own,
matching the stability of the Python `sorted`. -/
def insertBySeq (e : EnrichedEvent) : List EnrichedEvent → List EnrichedEvent
  | [] => [e]
  | x :: xs => if seqKey x < seqKey e then x :: insertBySeq e xs else e :: x :: xs

/-- The stable sort `sorted(events, key=lambda e: e.sequence_number or 0)`
of `PatternRule.matches`. -/
def sortBySeq (events : List EnrichedEvent) : List EnrichedEvent :=
  events.foldr insertBySeq []

/-- One step of the loop body of `PatternRule._filter_by_time_window`:
the inner `for prev in result` loop appends the event once and breaks as
soon as some already-retained event lies within the window. -/
def clusterStep (window : Int) (result : List EnrichedEvent) (e : EnrichedEvent) : List EnrichedEvent :=
  if result.any (fun prev => decide (((e.timestamp - prev.timestamp).natAbs : Int) ≤ window)) then
    result ++ [e]
  else
    result

/-- Method `PatternRule._filter_by_time_window` from
app/services/pattern_detection.py lines 114 to 132: the first event is
always retained, each later event is retained when within the window of
an already-retained one.  `abs(...total_seconds()) <= window.total_seconds()`
is the natural-absolute-value comparison. -/
def filterByTimeWindow (window : Int) : List EnrichedEvent → List EnrichedEvent
  | [] => []
  | e :: rest => rest.foldl (clusterStep window) [e]

/-- Transitive clustering as worded in spec section 4.8 step 5 (second
definition, for the refinement claim C4): walk the remaining positives,
retaining one exactly when it is within the window of at least one
already-retained positive, seeded by the first positive. -/
def clusterRetain (window : Int) (acc : List EnrichedEvent) : List EnrichedEvent → List EnrichedEvent
  | [] => acc
  | e :: rest =>
    if ∃ prev ∈ acc, ((e.timestamp - prev.timestamp).natAbs : Int) ≤ window then
      clusterRetain window (acc ++ [e]) rest
    else
      clusterRetain window acc rest

/-- Entry point of the spec-worded clustering of spec section 4.8 step 5. -/
def specTimeWindowCluster (window : Int) : List EnrichedEvent → List EnrichedEvent
  | [] => []
  | e :: rest => clusterRetain window [e] rest

/-- Class `PatternRule` from app/services/pattern_detection.py (the
`code`, `description` and `severity` payload fields are carried along
but play no role in matching). -/
structure PatternRule where
  code : PyStr := []
  description : PyStr := []
  severity : Severity := Severity.low
  filter : Option EventFilter := none
  min_count : Int := 1
  negative_filter : Option EventFilter := none
  negative_time_window : Option Int := none
  time_window : Option Int := none
  session_filter : Option SessionFilter := none

/-- Retained positives of a rule: the positive filter applied to the
sequence-sorted events, then clustered when `time_window` is set and
truthy (a zero window is falsy in Python and skips the clustering). -/
def retainedPositives (r : PatternRule) (f : EventFilter) (events : List EnrichedEvent) : List EnrichedEvent :=
  let positives := f.apply (sortBySeq events)
  match r.time_window with
  | some w => if w ≠ 0 then filterByTimeWindow w positives else positives
  | none => positives

/-- Negative candidates of a rule: the negative filter applied to the
sequence-sorted events. -/
def negativeCandidates (nf : EventFilter) (events : List EnrichedEvent) : List EnrichedEvent :=
  nf.apply (sortBySeq events)

/-- Event-level part of `PatternRule.matches` (source lines 77 to 112).
`none` models the `IndexError` that `positives[-1]` raises on an empty
retained-positive list. -/
def PatternRule.eventCond (r : PatternRule) (events : List EnrichedEvent) : Option Bool :=
  match r.filter with
  | none => some true
  | some f =>
    let positives := retainedPositives r f events
    if (positives.length : Int) < r.min_count then
      some false
    else
      match r.negative_filter with
      | none => some true
      | some nf =>
        let negatives := negativeCandidates nf events
        match r.negative_time_window with
        | none => some negatives.isEmpty
        | some w =>
          match positives.getLast? with
          | none => none
          | some lastPos =>
            some (negatives.all (fun e =>
              !(decide (lastPos.timestamp ≤ e.timestamp) && decide (e.timestamp ≤ lastPos.timestamp + w))))

/-- Method `PatternRule.matches` from app/services/pattern_detection.py
lines 71 to 112: the session filter gates first, then the event-level
conditions. -/
def PatternRule.matches (r : PatternRule) (events : List EnrichedEvent) (session : SessionContext) : Option Bool :=
  match r.session_filter with
  | some sf => if !(sf.matches session) then some false else r.eventCond events
  | none => r.eventCond events

/-- Status enum `RawEventStatus` from app/models.py. -/
inductive RawStatus where
  | pending
  | done
  | failed
deriving DecidableEq

/-- Class `RawEvent` from app/models.py (queue row; the `created_at` and
`updated_at` bookkeeping timestamps are elided). -/
structure RawEvent where
  raw_event_id : Nat
  event_name : PyStr := []
  user_id : PyStr := []
  timestamp : Int := 0
  properties : List (PyStr × PyStr) := []
  elements_chain : Option PyStr := none
  processed_at : Option Int := none
  status : RawStatus := RawStatus.pending
deriving DecidableEq

/-- Property `RawEvent.session_id`: `properties.get("$session_id")`. -/
def RawEvent.sessionId (e : RawEvent) : Option PyStr :=
  lookupProp e.properties ("$session_id".data)

/-- Property `RawEvent.page_path`: `properties.get("$pathname")`. -/
def RawEvent.pagePath (e : RawEvent) : Option PyStr :=
  lookupProp e.properties ("$pathname".data)

/-- Class `Session` from app/models.py (persisted session row; the
`created_at`, `updated_at` and `session_summary` fields are elided). -/
structure Session where
  session_id : PyStr
  user_id : PyStr := []
  started_at : Int := 0
  last_activity_at : Int := 0
  ended_at : Option Int := none
  event_count : Int := 0
  page_views_count : Int := 0
  clicks_count : Int := 0
  first_page : Option PyStr := none
  last_page : Option PyStr := none
  is_active : Bool := true
deriving DecidableEq

/-- Database state the worker mutates: the three persisted tables. -/
structure DBState where
  raws : List RawEvent := []
  enriched : List EnrichedEvent := []
  sessions : List Session := []
deriving DecidableEq

/-- Function `update_raw_event_status` from
app/services/persist_services.py lines 24 to 26: the UPDATE sets the
`status` column only; in particular `processed_at` is never written. -/
def updateRawEventStatus (raws : List RawEvent) (raw_event_id : Nat) (status : RawStatus) : List RawEvent :=
  raws.map (fun r => if r.raw_event_id = raw_event_id then { r with status := status } else r)

/-- Function `mark_event_as_done` from app/services/persist_services.py. -/
def markEventAsDone (st : DBState) (event_id : Nat) : DBState :=
  { st with raws := updateRawEventStatus st.raws event_id RawStatus.done }

/-- Function `mark_event_as_failed` from app/services/persist_services.py. -/
def markEventAsFailed (st : DBState) (event_id : Nat) : DBState :=
  { st with raws := updateRawEventStatus st.raws event_id RawStatus.failed }

/-- Function `create_enriched_event` from app/services/persist_services.py:
INSERT of the enriched row. -/
def createEnrichedEvent (st : DBState) (e : EnrichedEvent) : DBState :=
  { st with enriched := st.enriched ++ [e] }

/-- Query `fetch_session` from app/services/query_services.py. -/
def findSession (sessions : List Session) (session_id : PyStr) : Option Session :=
  sessions.find? (fun s => decide (s.session_id = session_id))

/-- Function `get_or_create_session` from
app/services/persist_services.py lines 42 to 57: idempotent INSERT with
ON CONFLICT (session_id) DO NOTHING, then a read-back of the row. -/
def getOrCreateSession (st : DBState) (event : RawEvent) : DBState × Session :=
  let sid := strVal event.sessionId
  match findSession st.sessions sid with
  | some existing => (st, existing)
  | none =>
    let created : Session :=
      { session_id := sid
        user_id := event.user_id
        started_at := event.timestamp
        last_activity_at := event.timestamp
        first_page := event.pagePath
        is_active := true }
    ({ st with sessions := st.sessions ++ [created] }, created)

/-- Row mutation of `update_session_activity` from
app/services/persist_services.py lines 60 to 77: always bump
`last_activity_at` and `event_count`; with a truthy `page_path` bump the
page-view counter and `last_page`, otherwise with a click event bump the
click counter. -/
def applySessionActivity (s : Session) (event : RawEvent) (enriched : EnrichedEvent) : Session :=
  let s1 := { s with last_activity_at := event.timestamp, event_count := s.event_count + 1 }
  if strTruthy enriched.page_path then
    { s1 with page_views_count := s1.page_views_count + 1, last_page := enriched.page_path }
  else if enriched.event_type = EventType.click then
    { s1 with clicks_count := s1.clicks_count + 1 }
  else
    s1

/-- Function `update_session_activity` (UPDATE WHERE session_id = sid). -/
def updateSessionActivity (st : DBState) (session_id : PyStr) (event : RawEvent) (enriched : EnrichedEvent) : DBState :=
  { st with sessions := st.sessions.map (fun s =>
      if s.session_id = session_id then applySessionActivity s event enriched else s) }

/-- Modelled from the spec: `enrich_event` is imported by the worker from
app.services.enrichment_services but is defined nowhere in the repository
sources.  Spec section 4.6 steps 3 to 9 describe it as a pure, total
derivation of the enriched-row payload from the raw event and the session
read-back (the fallible template rendering is caught internally per
section 7, TEMPLATE_MISS).  It is therefore modelled as an arbitrary
total function; every pipeline theorem below holds for every such
function. -/
def EnrichFn : Type := RawEvent → Session → EnrichedEvent

/-- Error raised by `process_single_event` before any write when the raw
event lacks a usable `$session_id` (the `ValueError` of worker line 40). -/
inductive PipelineError where
  | missingSession
deriving DecidableEq

/-- Function `process_single_event` from
app/workers/ingestion_worker.py lines 34 to 57, as a transition on the
database state inside one transaction; `Except.error` models the raised
exception, which rolls the whole transaction back. -/
def processSingleEvent (enrichFn : EnrichFn) (st : DBState) (event : RawEvent) : Except PipelineError DBState :=
  if !(strTruthy event.sessionId) then
    Except.error PipelineError.missingSession
  else
    let sid := strVal event.sessionId
    let pr := getOrCreateSession st event
    let enriched := enrichFn event pr.2
    let st2 := createEnrichedEvent pr.1 enriched
    let st3 := updateSessionActivity st2 sid event enriched
    Except.ok (markEventAsDone st3 event.raw_event_id)

/-- Function `process_with_semaphore` from
app/workers/ingestion_worker.py lines 60 to 68: on any exception the
per-event transaction is rolled back (the pre-call state is kept), the
raw row is marked FAILED in a separate transaction, and the error is
swallowed. -/
def processWithSemaphore (enrichFn : EnrichFn) (st : DBState) (event : RawEvent) : DBState :=
  match processSingleEvent enrichFn st event with
  | Except.ok st2 => st2
  | Except.error _ => markEventAsFailed st event.raw_event_id

/-- Scenario S4, positive event: a checkout-labelled custom event at
t = 0 with sequence number 1. -/
def checkoutEvent : EnrichedEvent :=
  { event_type := EventType.custom
    semantic_label := ("Started checkout".data)
    timestamp := 0
    sequence_number := some 1 }

/-- Scenario S4, negative event: a completed-labelled custom event 40
minutes later with sequence number 2. -/
def completedEvent : EnrichedEvent :=
  { event_type := EventType.custom
    semantic_label := ("Order completed".data)
    timestamp := 2400
    sequence_number := some 2 }

/-- Scenario S4 rule: checkout abandonment with a 30-minute negative
window. -/
def ruleS4 : PatternRule :=
  { code := ("checkout_abandoned".data)
    severity := Severity.high
    filter := some { semantic_contains := some ("checkout".data) }
    min_count := 1
    negative_filter := some { semantic_contains := some ("completed".data) }
    negative_time_window := some 1800 }

/-- Scenario S4 session context: a finished 45-minute session. -/
def sessionS4 : SessionContext :=
  { ended_at := some 2700
    duration := some 2700
    event_count := 2
    is_active := false }

/-- Degenerate rule for claim C10: `min_count = 0` with filter, negative
filter and negative window all set. -/
def zeroCountRule : PatternRule :=
  { filter := some { semantic_contains := some ("checkout".data) }
    min_count := 0
    negative_filter := some { semantic_contains := some ("completed".data) }
    negative_time_window := some 60 }

/-- Raw event of the S1-style happy path: a pageview with a session id. -/
def rawPageviewEvent : RawEvent :=
  { raw_event_id := 1
    event_name := ("$pageview".data)
    user_id := ("u1".data)
    timestamp := 0
    properties := [(("$session_id".data), ("s1".data)),
                   (("$pathname".data), ("/home".data)),
                   (("title".data), ("Home Page".data))] }

/-- Raw event with empty properties (scenario S3): no `$session_id`. -/
def rawNoSessionEvent : RawEvent :=
  { raw_event_id := 2
    event_name := ("$pageview".data)
    user_id := ("u1".data)
    timestamp := 5
    properties := [] }

/-- Initial queue state holding the two sample raw rows, both PENDING
with a null `processed_at`. -/
def initialState : DBState :=
  { raws := [rawPageviewEvent, rawNoSessionEvent] }

/-- Concrete total enrichment function used to instantiate the pipeline
theorems: derives the pageview payload the way spec section 4.6
describes. -/
def samplePageviewEnrich : EnrichFn := fun event session =>
  { raw_event_id := event.raw_event_id
    user_id := event.user_id
    session_id := session.session_id
    timestamp := event.timestamp
    event_name := event.event_name
    event_type := EventType.pageview
    action_type := some ActionType.view
    semantic_label := ("Viewed Home Page".data)
    page_path := event.pagePath
    page_title := lookupProp event.properties ("title".data)
    sequence_number := some (session.event_count + 1) }

/-- State after the happy-path pipeline run on `rawPageviewEvent`,
obtained by computation. -/
def doneState : DBState :=
  processWithSemaphore samplePageviewEnrich initialState rawPageviewEvent

/-- Trivial template renderer (every rendering misses a property),
usable to instantiate `TemplateFormatFn`. -/
def noRenderFmt : TemplateFormatFn := fun _ _ => none

/-- Builder configured with defaults (`SemanticLabelBuilder()`). -/
def defaultBuilder : SemanticLabelBuilder := {}

/-- Builder configured with `max_length=20` exactly as in the test
`test_semantic_label_builder_max_length_truncation`. -/
def builder20 : SemanticLabelBuilder := { max_length := 20 }

/-- The long page title of that same builder test (55 characters). -/
def longTitlePage : PageInfo :=
  { page_path := ("/".data)
    page_title := ("This is a very long page title that exceeds max length".data) }

/-- Pageview enriched event with no page title (a null `page_title`),
used to exercise the summary fragment logic. -/
def untitledPageview : EnrichedEvent :=
  { event_type := EventType.pageview
    action_type := some ActionType.view
    sequence_number := some 1 }

/-- Trailing-period normalization at the end of
`generate_events_summary`: append a period unless the summary already
ends with one. -/
def withTrailingPeriod (s : PyStr) : PyStr :=
  if !((".".data).isSuffixOf s) then s ++ (".".data) else s

/-- Pageview enriched event carrying the page title `Home`. -/
def titledPageview : EnrichedEvent :=
  { event_type := EventType.pageview
    action_type := some ActionType.view
    page_title := some ("Home".data)
    sequence_number := some 1 }

theorem char_toNat_ofNat_small (n : Nat) (h : n < 128) : (Char.ofNat n).toNat = n := by
  rw [Char.ofNat]
  rw [dif_pos (Or.inl (by omega : n < 0xd800))]
  simp [Char.toNat, Char.ofNatAux, UInt32.toNat, BitVec.toNat_ofNatLt]

theorem char_toUpper_idem (c : Char) : (Char.toUpper c).toUpper = c.toUpper := by
  rw [Char.toUpper, Char.toUpper]
  by_cases h : c.toNat ≥ 97 ∧ c.toNat ≤ 122
  · rw [if_pos h]
    have h2 : (Char.ofNat (c.toNat - 32)).toNat = c.toNat - 32 :=
      char_toNat_ofNat_small _ (by omega)
    rw [if_neg (by rw [h2]; omega)]
  · rw [if_neg h, if_neg h]

/-- Claim C9 (amended): for `max ≥ 0`, `truncate_text` returns the text
unchanged when it fits; when `max ≥ 3` and the text is longer, the
result has length exactly `max` and ends in the ellipsis; when
`max < 3` and the text is longer, the Python negative slice drops the
last `3 - max` characters of the text and appends the ellipsis (so the
result can be longer than `max`). -/
theorem truncate_boundary_law (s : PyStr) (m : Int) (hm : 0 ≤ m) :
    ((s.length : Int) ≤ m → truncateText s m = s) ∧
    (3 ≤ m → m < (s.length : Int) →
      ((truncateText s m).length : Int) = m ∧ ("...".data) <:+ truncateText s m) ∧
    (m < 3 → m < (s.length : Int) →
      truncateText s m = s.take (s.length - (3 - m).toNat) ++ ("...".data)) := by
  refine ⟨?_, ?_, ?_⟩
  · intro h
    simp [truncateText, h]
  · intro h3 hlen
    constructor
    · simp only [truncateText, pySliceTo]
      rw [if_neg (by omega)]
      rw [if_pos (by omega : (0:Int) ≤ m - 3)]
      simp only [List.length_append, List.length_take]
      rw [min_eq_left (by omega : (m - 3).toNat ≤ s.length)]
      have : (("...".data)).length = 3 := by decide
      rw [this]
      omega
    · simp only [truncateText]
      rw [if_neg (by omega)]
      exact List.suffix_append _ _
  · intro hm3 hlen
    simp only [truncateText, pySliceTo]
    rw [if_neg (by omega)]
    rw [if_neg (by omega : ¬ (0:Int) ≤ m - 3)]
    have : s.length - (m - 3).natAbs = s.length - (3 - m).toNat := by omega
    rw [this]

/-- Witness for the truncate boundary law at the concrete input
`("abcdefgh", 5)`. -/
theorem truncate_boundary_law_witness :
    (0:Int) ≤ 5 ∧
    ((((("abcdefgh").data).length : Int) ≤ 5 →
        truncateText (("abcdefgh").data) 5 = (("abcdefgh").data)) ∧
     (3 ≤ (5:Int) → (5:Int) < ((("abcdefgh").data).length : Int) →
        ((truncateText (("abcdefgh").data) 5).length : Int) = 5 ∧
        ("...".data) <:+ truncateText (("abcdefgh").data) 5) ∧
     ((5:Int) < 3 → (5:Int) < ((("abcdefgh").data).length : Int) →
        truncateText (("abcdefgh").data) 5 =
          (("abcdefgh").data).take ((("abcdefgh").data).length - ((3:Int) - 5).toNat) ++ ("...".data))) :=
  ⟨by decide, truncate_boundary_law (("abcdefgh").data) 5 (by decide)⟩

/-- Counterexample for claim C9 as stated: at `max = 0 < 3` the claim
demands the result be the ellipsis truncated to 0 characters, i.e. the
empty string, but the code computes `"text"[:-3] + "..."`, which is
`"t..."` of length 4. -/
theorem truncate_small_max_counterexample :
    truncateText (("text").data) 0 = (("t...").data) ∧
    ¬ (((truncateText (("text").data) 0).length : Int) ≤ 0) := by
  constructor
  · decide
  · decide

theorem truncate_at_constant_le (l : PyStr) :
    ((truncateText l SEMANTIC_LABEL_MAX_LENGTH).length : Int) ≤ SEMANTIC_LABEL_MAX_LENGTH := by
  by_cases h : (l.length : Int) ≤ SEMANTIC_LABEL_MAX_LENGTH
  · simp [truncateText, h]
  · simp only [truncateText, pySliceTo, SEMANTIC_LABEL_MAX_LENGTH] at h ⊢
    rw [if_neg h]
    rw [if_pos (by omega : (0:Int) ≤ (150:Int) - 3)]
    simp only [List.length_append, List.length_take]
    have h3 : (("...".data)).length = 3 := by decide
    rw [h3]
    omega

theorem capitalize_length (l : PyStr) : (capitalizeFirstLetter l).length = l.length := by
  cases l <;> simp [capitalizeFirstLetter]

theorem capitalize_head_fixed (l : PyStr) (c : Char) (rest : PyStr)
    (h : capitalizeFirstLetter l = c :: rest) : c.toUpper = c := by
  cases l with
  | nil => simp [capitalizeFirstLetter] at h
  | cons c0 r =>
    simp only [capitalizeFirstLetter] at h
    injection h with h1 h2
    exact h1 ▸ char_toUpper_idem c0

/-- Claim C6 (amended): for every builder configuration, template
renderer and input combination, the built semantic label has length at
most the module constant `SEMANTIC_LABEL_MAX_LENGTH` (150) — the
configured `max_length` field is not what the source truncates with —
and its first code point is fixed under uppercasing (it is the
uppercased first code point of the truncated label; a label starting
with a caseless code point such as a digit keeps it unchanged). -/
theorem semantic_label_postcondition (b : SemanticLabelBuilder) (fmt : TemplateFormatFn)
    (event_type : EventType) (action_type : ActionType) (page_info : PageInfo)
    (element_info : ParsedElements) (event_name : Option PyStr) (properties : List (PyStr × PyStr)) :
    ((SemanticLabelBuilder.build b fmt event_type action_type page_info element_info event_name properties).length : Int)
      ≤ SEMANTIC_LABEL_MAX_LENGTH ∧
    (∀ c rest,
      SemanticLabelBuilder.build b fmt event_type action_type page_info element_info event_name properties = c :: rest →
      c.toUpper = c) := by
  constructor
  · simp only [SemanticLabelBuilder.build]
    rw [capitalize_length]
    exact truncate_at_constant_le _
  · intro c rest h
    simp only [SemanticLabelBuilder.build] at h
    exact capitalize_head_fixed _ c rest h

/-- Witness for the semantic-label postcondition at the concrete default
configuration and a pageview (scenario S1). -/
theorem semantic_label_postcondition_witness :
    ((SemanticLabelBuilder.build defaultBuilder noRenderFmt EventType.pageview ActionType.view
        (PageInfo.mk ("/home".data) ("Home Page".data)) {} none []).length : Int)
      ≤ SEMANTIC_LABEL_MAX_LENGTH ∧
    (∀ c rest,
      SemanticLabelBuilder.build defaultBuilder noRenderFmt EventType.pageview ActionType.view
        (PageInfo.mk ("/home".data) ("Home Page".data)) {} none [] = c :: rest →
      c.toUpper = c) :=
  semantic_label_postcondition defaultBuilder noRenderFmt EventType.pageview ActionType.view
    (PageInfo.mk ("/home".data) ("Home Page".data)) {} none []

/-- Counterexample for claim C6 as stated.  First conjunct pair: the
builder configured with `max_length = 20` (the configuration of the test
`test_semantic_label_builder_max_length_truncation`) yields a 62-code-point
label, exceeding the configured bound, because the source truncates with
the module constant.  Second pair: the custom event named `1234` yields
the label `1234`, whose first code point is not an uppercase one. -/
theorem semantic_label_counterexample :
    (SemanticLabelBuilder.build builder20 noRenderFmt EventType.pageview ActionType.view
        longTitlePage {} none []
      = (("Viewed This is a very long page title that exceeds max length").data)) ∧
    ¬ (((SemanticLabelBuilder.build builder20 noRenderFmt EventType.pageview ActionType.view
        longTitlePage {} none []).length : Int) ≤ builder20.max_length) ∧
    (SemanticLabelBuilder.build defaultBuilder noRenderFmt EventType.custom ActionType.click
        (PageInfo.mk ("/".data) ("home page".data)) {} (some (("1234").data)) []
      = (("1234").data)) ∧
    Char.isUpper '1' = false := by
  refine ⟨by decide, by decide, by decide, by decide⟩

theorem autocapture_cases (properties : List (PyStr × PyStr)) :
    classifyAutocapture properties =
      (if lookupProp properties ("$event_type".data) = some ("submit".data) then
        EventClassification.mk EventType.click ActionType.submit
      else if lookupProp properties ("$event_type".data) = some ("change".data) then
        EventClassification.mk EventType.click ActionType.change
      else
        EventClassification.mk EventType.click ActionType.click) := by
  rcases h : lookupProp properties ("$event_type".data) with _ | v
  · simp [classifyAutocapture, h]
  · simp only [classifyAutocapture, h, Option.getD_some]
    by_cases hs : v = ("submit".data)
    · subst hs
      simp
    · by_cases hc : v = ("change".data)
      · subst hc
        simp
      · by_cases hk : v = ("click".data)
        · subst hk
          simp
        · simp [hs, hc, hk]

/-- Claim C8: both copies of `classify_event` (enrichment_services and
event_parsing) compute exactly the decision table of spec section 4.2,
first match wins, including the keyword heuristic priority for custom
events and the default `(click, click)` for `$autocapture` with a
missing or unrecognised `$event_type`. -/
theorem classify_event_decision_table (event_name : PyStr) (properties : List (PyStr × PyStr)) :
    classifyEventEnrichment event_name properties = classifySpecTable event_name properties ∧
    classifyEventParsing event_name properties = classifySpecTable event_name properties ∧
    classifyEventEnrichment event_name properties = classifyEventParsing event_name properties := by
  have hp : classifyEventParsing event_name properties = classifySpecTable event_name properties := by
    simp only [classifyEventParsing, classifySpecTable, autocapture_cases]
    split_ifs <;> first | rfl | tauto
  have he : classifyEventEnrichment event_name properties = classifySpecTable event_name properties := by
    simp only [classifyEventEnrichment, classifySpecTable, autocapture_cases]
    split_ifs <;> first | rfl | tauto
  exact ⟨he, hp, he.trans hp.symm⟩

theorem failMinDuration_false_iff (f : SessionFilter) (s : SessionContext) :
    failMinDuration f s = false ↔
      (∀ b, f.min_duration_seconds = some b → b ≠ 0 → b ≤ s.durationSeconds.getD 0) := by
  rcases h : f.min_duration_seconds with _ | b
  · simp [failMinDuration, h]
  · simp only [failMinDuration, h, Bool.and_eq_false_iff, decide_eq_false_iff_not,
      Option.some.injEq]
    constructor
    · rintro (hb | hlt) b0 hb0 hb0ne
      · omega
      · omega
    · intro hall
      by_cases hb : b = 0
      · left
        omega
      · right
        have := hall b rfl hb
        omega

theorem failMaxDuration_false_iff (f : SessionFilter) (s : SessionContext) :
    failMaxDuration f s = false ↔
      (∀ b, f.max_duration_seconds = some b → b ≠ 0 →
        s.durationSeconds.getD 0 ≠ 0 ∧ s.durationSeconds.getD 0 ≤ b) := by
  rcases h : f.max_duration_seconds with _ | b
  · simp [failMaxDuration, h]
  · by_cases hb : b = 0
    · subst hb
      apply iff_of_true
      · simp [failMaxDuration, h]
      · intro b0 hb0 hb0ne
        injection hb0 with he
        omega
    · rcases hd : s.durationSeconds with _ | d
      · apply iff_of_false
        · simp [failMaxDuration, h, hd, hb]
        · intro hall
          have h2 := hall b rfl hb
          simp at h2
      · by_cases hz : d = 0
        · subst hz
          apply iff_of_false
          · simp [failMaxDuration, h, hd, hb]
          · intro hall
            have h2 := hall b rfl hb
            simp at h2
        · constructor
          · intro hfalse b0 hb0 hb0ne
            injection hb0 with he
            subst he
            simp only [Option.getD_some]
            simp [failMaxDuration, h, hd, hb, hz] at hfalse
            exact ⟨hz, by omega⟩
          · intro hall
            have h2 := hall b rfl hb
            simp only [Option.getD_some] at h2
            simp [failMaxDuration, h, hd, hb, hz]
            omega

theorem failMinEvents_false_iff (f : SessionFilter) (s : SessionContext) :
    failMinEvents f s = false ↔ (∀ b, f.min_events = some b → b ≠ 0 → b ≤ s.event_count) := by
  rcases h : f.min_events with _ | b
  · simp [failMinEvents, h]
  · simp only [failMinEvents, h, Bool.and_eq_false_iff, decide_eq_false_iff_not,
      Option.some.injEq]
    constructor
    · rintro (hb | hlt) b0 hb0 hb0ne <;> omega
    · intro hall
      by_cases hb : b = 0
      · left
        omega
      · right
        have := hall b rfl hb
        omega

theorem failMaxEvents_false_iff (f : SessionFilter) (s : SessionContext) :
    failMaxEvents f s = false ↔ (∀ b, f.max_events = some b → b ≠ 0 → s.event_count ≤ b) := by
  rcases h : f.max_events with _ | b
  · simp [failMaxEvents, h]
  · simp only [failMaxEvents, h, Bool.and_eq_false_iff, decide_eq_false_iff_not,
      Option.some.injEq]
    constructor
    · rintro (hb | hlt) b0 hb0 hb0ne <;> omega
    · intro hall
      by_cases hb : b = 0
      · left
        omega
      · right
        have := hall b rfl hb
        omega

theorem failMinPageViews_false_iff (f : SessionFilter) (s : SessionContext) :
    failMinPageViews f s = false ↔
      (∀ b, f.min_page_views = some b → b ≠ 0 → b ≤ s.page_views_count) := by
  rcases h : f.min_page_views with _ | b
  · simp [failMinPageViews, h]
  · simp only [failMinPageViews, h, Bool.and_eq_false_iff, decide_eq_false_iff_not,
      Option.some.injEq]
    constructor
    · rintro (hb | hlt) b0 hb0 hb0ne <;> omega
    · intro hall
      by_cases hb : b = 0
      · left
        omega
      · right
        have := hall b rfl hb
        omega

theorem failMaxPageViews_false_iff (f : SessionFilter) (s : SessionContext) :
    failMaxPageViews f s = false ↔
      (∀ b, f.max_page_views = some b → b ≠ 0 → s.page_views_count ≤ b) := by
  rcases h : f.max_page_views with _ | b
  · simp [failMaxPageViews, h]
  · simp only [failMaxPageViews, h, Bool.and_eq_false_iff, decide_eq_false_iff_not,
      Option.some.injEq]
    constructor
    · rintro (hb | hlt) b0 hb0 hb0ne <;> omega
    · intro hall
      by_cases hb : b = 0
      · left
        omega
      · right
        have := hall b rfl hb
        omega

theorem session_filter_matches_iff_no_fail (f : SessionFilter) (s : SessionContext) :
    f.matches s = true ↔
      (failMinDuration f s = false ∧ failMaxDuration f s = false ∧
       failMinEvents f s = false ∧ failMaxEvents f s = false ∧
       failMinPageViews f s = false ∧ failMaxPageViews f s = false) := by
  simp only [SessionFilter.matches]
  split_ifs <;> simp_all

/-- Claim C5 (amended): a `SessionFilter` matches a session iff every
bound that is set AND non-zero holds, where `min_*` means `actual ≥
bound` (a missing duration counts as 0), `max_events`/`max_page_views`
mean `actual ≤ bound`, and a non-zero `max_duration_seconds` additionally
requires the duration to be present and non-zero (a missing OR zero
duration compares as infinity and fails the bound).  A bound set to 0 is
falsy in Python and is not enforced. -/
theorem session_filter_semantics (f : SessionFilter) (s : SessionContext) :
    f.matches s = true ↔
      ((∀ b, f.min_duration_seconds = some b → b ≠ 0 → b ≤ s.durationSeconds.getD 0) ∧
       (∀ b, f.max_duration_seconds = some b → b ≠ 0 →
          s.durationSeconds.getD 0 ≠ 0 ∧ s.durationSeconds.getD 0 ≤ b) ∧
       (∀ b, f.min_events = some b → b ≠ 0 → b ≤ s.event_count) ∧
       (∀ b, f.max_events = some b → b ≠ 0 → s.event_count ≤ b) ∧
       (∀ b, f.min_page_views = some b → b ≠ 0 → b ≤ s.page_views_count) ∧
       (∀ b, f.max_page_views = some b → b ≠ 0 → s.page_views_count ≤ b)) := by
  rw [session_filter_matches_iff_no_fail, failMinDuration_false_iff, failMaxDuration_false_iff,
    failMinEvents_false_iff, failMaxEvents_false_iff, failMinPageViews_false_iff,
    failMaxPageViews_false_iff]

/-- Witness for the session-filter semantics at scenario S5: a 20-second
two-event session matches the quick-bounce bounds
`max_duration_seconds = 30, max_events = 3`. -/
theorem session_filter_semantics_witness :
    SessionFilter.matches { max_duration_seconds := some 30, max_events := some 3 }
      { duration := some 20, event_count := 2 } = true := by
  apply (session_filter_semantics { max_duration_seconds := some 30, max_events := some 3 }
    { duration := some 20, event_count := 2 }).mpr
  refine ⟨?_, ?_, ?_, ?_, ?_, ?_⟩
  · intro b hb hbne
    cases hb
  · intro b hb hbne
    injection hb with he
    subst he
    refine ⟨by decide, by decide⟩
  · intro b hb hbne
    cases hb
  · intro b hb hbne
    injection hb with he
    subst he
    decide
  · intro b hb hbne
    cases hb
  · intro b hb hbne
    cases hb

/-- Counterexample for claim C5 as stated: a session whose duration is
exactly 0 seconds does NOT match `max_duration_seconds = 30` (the code
treats a zero duration as missing and compares it as infinity), and a
bound explicitly set to 0 is NOT enforced (a 5-event session matches
`max_events = 0`). -/
theorem session_filter_counterexample :
    SessionFilter.matches { max_duration_seconds := some 30 }
      { duration := some 0, event_count := 1, page_views_count := 1 } = false ∧
    SessionFilter.matches { max_events := some 0 } { event_count := 5 } = true := by
  refine ⟨by decide, by decide⟩

theorem foldl_clusterStep_sublist (w : Int) (xs : List EnrichedEvent) :
    ∀ (acc l0 : List EnrichedEvent), acc.Sublist l0 →
      (xs.foldl (clusterStep w) acc).Sublist (l0 ++ xs) := by
  induction xs with
  | nil =>
    intro acc l0 h
    simpa using h
  | cons x xs ih =>
    intro acc l0 h
    have hstep : (clusterStep w acc x).Sublist (l0 ++ [x]) := by
      unfold clusterStep
      split
      · exact h.append (List.Sublist.refl [x])
      · exact h.trans (List.sublist_append_left l0 [x])
    have h2 := ih (clusterStep w acc x) (l0 ++ [x]) hstep
    simpa [List.append_assoc] using h2

theorem foldl_clusterStep_head (w : Int) (xs : List EnrichedEvent) :
    ∀ acc : List EnrichedEvent, acc ≠ [] →
      (xs.foldl (clusterStep w) acc).head? = acc.head? := by
  induction xs with
  | nil =>
    intro acc h
    rfl
  | cons x xs ih =>
    intro acc h
    cases acc with
    | nil => exact absurd rfl h
    | cons a rest =>
      have hne : clusterStep w (a :: rest) x ≠ [] := by
        unfold clusterStep
        split
        · simp
        · simp
      have hhead : (clusterStep w (a :: rest) x).head? = some a := by
        unfold clusterStep
        split
        · simp
        · simp
      rw [List.foldl_cons, ih (clusterStep w (a :: rest) x) hne, hhead]
      rfl

theorem foldl_eq_clusterRetain (w : Int) (xs : List EnrichedEvent) :
    ∀ acc : List EnrichedEvent, xs.foldl (clusterStep w) acc = clusterRetain w acc xs := by
  induction xs with
  | nil =>
    intro acc
    rfl
  | cons x xs ih =>
    intro acc
    simp only [List.foldl_cons, clusterRetain]
    by_cases hcond : ∃ prev ∈ acc, ((x.timestamp - prev.timestamp).natAbs : Int) ≤ w
    · rw [if_pos hcond]
      have hb : clusterStep w acc x = acc ++ [x] := by
        unfold clusterStep
        rw [if_pos ?hc]
        case hc =>
          rw [List.any_eq_true]
          obtain ⟨p, hp, hle⟩ := hcond
          exact ⟨p, hp, by simpa using hle⟩
      rw [hb, ih]
    · rw [if_neg hcond]
      have hb : clusterStep w acc x = acc := by
        unfold clusterStep
        rw [if_neg ?hc]
        case hc =>
          rw [List.any_eq_true]
          rintro ⟨p, hp, hle⟩
          exact hcond ⟨p, hp, by simpa using hle⟩
      rw [hb, ih]

/-- Claim C4: `_filter_by_time_window` returns a sublist of its input
(so no event occurrence is appended twice and the result is never longer
than the input), always retains the first positive, and equals the
spec-worded once-only transitive clustering seeded by the first
positive (an event is retained exactly when it is within the window of
at least one already-retained event). -/
theorem time_window_clustering (w : Int) (events : List EnrichedEvent) :
    (filterByTimeWindow w events).Sublist events ∧
    (filterByTimeWindow w events).length ≤ events.length ∧
    (events ≠ [] → (filterByTimeWindow w events).head? = events.head?) ∧
    filterByTimeWindow w events = specTimeWindowCluster w events := by
  cases events with
  | nil =>
    refine ⟨List.Sublist.refl _, le_refl _, fun h => absurd rfl h, rfl⟩
  | cons e rest =>
    have hsub : (filterByTimeWindow w (e :: rest)).Sublist (e :: rest) := by
      have h := foldl_clusterStep_sublist w rest [e] [e] (List.Sublist.refl [e])
      simpa [filterByTimeWindow] using h
    refine ⟨hsub, hsub.length_le, ?_, ?_⟩
    · intro h
      have h2 := foldl_clusterStep_head w rest [e] (by simp)
      simpa [filterByTimeWindow] using h2
    · have h3 := foldl_eq_clusterRetain w rest [e]
      simpa [filterByTimeWindow, specTimeWindowCluster] using h3

/-- Witness for the clustering law at the concrete two-event list of
scenario S4 with a 60-second window (the second event is 2400 seconds
away, so only the first is retained). -/
theorem time_window_clustering_witness :
    (filterByTimeWindow 60 [checkoutEvent, completedEvent]).Sublist [checkoutEvent, completedEvent] ∧
    (filterByTimeWindow 60 [checkoutEvent, completedEvent]).head? = some checkoutEvent ∧
    filterByTimeWindow 60 [checkoutEvent, completedEvent] =
      specTimeWindowCluster 60 [checkoutEvent, completedEvent] ∧
    filterByTimeWindow 60 [checkoutEvent, completedEvent] = [checkoutEvent] := by
  have h := time_window_clustering 60 [checkoutEvent, completedEvent]
  refine ⟨h.1, ?_, h.2.2.2, by decide⟩
  have h2 := h.2.2.1 (by decide)
  simpa using h2

/-- Claim C3: negative-condition semantics of `PatternRule.matches`.
Whenever the positive filter retains at least `min_count` events (and at
least one), the session gate passes, and the negative filter is set:
with `negative_time_window` null the rule matches iff no negative
candidate exists; with `negative_time_window = w` the rule matches iff
no negative candidate `n` satisfies `t ≤ n.timestamp ≤ t + w` for `t`
the timestamp of the last retained positive. -/
theorem negative_window_semantics (r : PatternRule) (f nf : EventFilter)
    (events : List EnrichedEvent) (session : SessionContext)
    (hf : r.filter = some f) (hnf : r.negative_filter = some nf)
    (hs : ∀ sf ∈ r.session_filter, sf.matches session = true)
    (hmin : r.min_count ≤ ((retainedPositives r f events).length : Int))
    (hne : retainedPositives r f events ≠ []) :
    (r.negative_time_window = none →
      r.matches events session = some (negativeCandidates nf events).isEmpty) ∧
    (∀ w, r.negative_time_window = some w →
      ∃ lastPos, (retainedPositives r f events).getLast? = some lastPos ∧
        r.matches events session = some ((negativeCandidates nf events).all (fun e =>
          !(decide (lastPos.timestamp ≤ e.timestamp) &&
            decide (e.timestamp ≤ lastPos.timestamp + w))))) := by
  have hmatch : r.matches events session = r.eventCond events := by
    unfold PatternRule.matches
    cases hsf : r.session_filter with
    | none => rfl
    | some sf =>
      have hm := hs sf (by rw [hsf]; rfl)
      show (if (!sf.matches session) = true then some false else r.eventCond events) =
        r.eventCond events
      rw [hm]
      rfl
  have hlen : ¬ (((retainedPositives r f events).length : Int) < r.min_count) := by omega
  constructor
  · intro hw
    rw [hmatch]
    simp only [PatternRule.eventCond, hf, hnf, hw]
    rw [if_neg hlen]
  · intro w hw
    have hsome : (retainedPositives r f events).getLast?.isSome := by
      rw [List.getLast?_isSome]
      exact hne
    obtain ⟨lastPos, hlp⟩ := Option.isSome_iff_exists.mp hsome
    refine ⟨lastPos, hlp, ?_⟩
    rw [hmatch]
    simp only [PatternRule.eventCond, hf, hnf, hw, hlp]
    rw [if_neg hlen]

/-- Witness for the negative-window semantics at scenario S4: checkout
at t = 0, completion at t = 2400 s, window 1800 s — the rule matches. -/
theorem negative_window_semantics_witness :
    ruleS4.matches [checkoutEvent, completedEvent] sessionS4 = some true := by
  obtain ⟨lp, hlp, heq⟩ :=
    (negative_window_semantics ruleS4 { semantic_contains := some ("checkout".data) }
      { semantic_contains := some ("completed".data) }
      [checkoutEvent, completedEvent] sessionS4 rfl rfl
      (by intro sf hsf; cases hsf) (by decide) (by decide)).2 1800 rfl
  have hcl : (retainedPositives ruleS4 { semantic_contains := some ("checkout".data) }
      [checkoutEvent, completedEvent]).getLast? = some checkoutEvent := by decide
  rw [hcl] at hlp
  injection hlp with hlp2
  subst hlp2
  rw [heq]
  decide

/-- Claim C10: `PatternRule.matches` is total whenever `min_count ≥ 1`
(the min-count gate guarantees the retained positives are non-empty
before `positives[-1]` is read), but with `min_count = 0`, a negative
filter and window set, and no positive match, the source raises an
`IndexError` (modelled as `none`). -/
theorem matches_totality_min_count :
    (∀ (r : PatternRule) (events : List EnrichedEvent) (session : SessionContext),
      r.filter.isSome = true → r.negative_filter.isSome = true →
      r.negative_time_window.isSome = true → 1 ≤ r.min_count →
      (r.matches events session).isSome = true) ∧
    zeroCountRule.matches [completedEvent] {} = none := by
  constructor
  · intro r events session hfi hnfi hnwi hmin
    have hev : (r.eventCond events).isSome = true := by
      rcases hff : r.filter with _ | f
      · simp [PatternRule.eventCond, hff]
      · simp only [PatternRule.eventCond, hff]
        by_cases hlen : ((retainedPositives r f events).length : Int) < r.min_count
        · rw [if_pos hlen]
          rfl
        · rw [if_neg hlen]
          rcases hnf2 : r.negative_filter with _ | nf
          · rfl
          · rcases hnw2 : r.negative_time_window with _ | w
            · rfl
            · have hne : retainedPositives r f events ≠ [] := by
                intro hempty
                rw [hempty] at hlen
                simp at hlen
                omega
              obtain ⟨lp, hlp⟩ := Option.isSome_iff_exists.mp
                (by rw [List.getLast?_isSome]; exact hne)
              simp [hlp]
    unfold PatternRule.matches
    cases hsf : r.session_filter with
    | none => exact hev
    | some sf =>
      show ((if (!sf.matches session) = true then some false else r.eventCond events)).isSome = true
      cases hm : sf.matches session with
      | false => rfl
      | true => simpa using hev
  · decide

/-- Witness for the totality half of claim C10 at the concrete S4 rule. -/
theorem matches_totality_min_count_witness :
    ruleS4.filter.isSome = true ∧ ruleS4.negative_filter.isSome = true ∧
    ruleS4.negative_time_window.isSome = true ∧ 1 ≤ ruleS4.min_count ∧
    (ruleS4.matches [checkoutEvent, completedEvent] sessionS4).isSome = true :=
  ⟨by decide, by decide, by decide, by decide,
    matches_totality_min_count.1 ruleS4 [checkoutEvent, completedEvent] sessionS4
      (by decide) (by decide) (by decide) (by decide)⟩

theorem strTruthy_iff (o : Option PyStr) : strTruthy o = true ↔ ∃ s, o = some s ∧ s ≠ [] := by
  cases o with
  | none => simp [strTruthy]
  | some s => simp [strTruthy, List.isEmpty_iff]

theorem collectUniquePages_nodup (limit : Int) (l : List EnrichedEvent) :
    ∀ acc : List PyStr, acc.Nodup → (collectUniquePages limit acc l).Nodup := by
  induction l with
  | nil =>
    intro acc h
    exact h
  | cons e rest ih =>
    intro acc h
    simp only [collectUniquePages]
    by_cases hcond : strTruthy e.page_title ∧ strVal e.page_title ∉ acc
    · rw [if_pos hcond]
      have hacc2 : (acc ++ [strVal e.page_title]).Nodup := by
        rw [List.nodup_append]
        exact ⟨h, List.nodup_singleton _, by simp [hcond.2]⟩
      split
      · exact hacc2
      · exact ih _ hacc2
    · rw [if_neg hcond]
      split
      · exact h
      · exact ih _ h

theorem collectUniquePages_le (limit : Int) (l : List EnrichedEvent) :
    ∀ acc : List PyStr, (acc.length : Int) < limit →
      ((collectUniquePages limit acc l).length : Int) ≤ limit := by
  induction l with
  | nil =>
    intro acc h
    exact le_of_lt h
  | cons e rest ih =>
    intro acc h
    simp only [collectUniquePages]
    by_cases hcond : strTruthy e.page_title ∧ strVal e.page_title ∉ acc
    · rw [if_pos hcond]
      have hlen : ((acc ++ [strVal e.page_title]).length : Int) ≤ limit := by
        simp only [List.length_append, List.length_singleton]
        push_cast
        omega
      split
      · exact hlen
      · next hstop => exact ih _ (by omega)
    · rw [if_neg hcond]
      split
      · exact le_of_lt h
      · next hstop => exact ih _ (by omega)

theorem collectUniquePages_mem (limit : Int) (l : List EnrichedEvent) :
    ∀ acc : List PyStr, ∀ t ∈ collectUniquePages limit acc l,
      t ∈ acc ∨ (t ≠ [] ∧ ∃ e ∈ l, e.page_title = some t) := by
  induction l with
  | nil =>
    intro acc t ht
    exact Or.inl ht
  | cons e rest ih =>
    intro acc t ht
    simp only [collectUniquePages] at ht
    have hstep : ∀ acc2 : List PyStr,
        (acc2 = acc ∨ (acc2 = acc ++ [strVal e.page_title] ∧ strTruthy e.page_title = true)) →
        t ∈ acc2 ∨ (t ≠ [] ∧ ∃ x ∈ rest, x.page_title = some t) →
        t ∈ acc ∨ (t ≠ [] ∧ ∃ x ∈ e :: rest, x.page_title = some t) := by
      rintro acc2 (rfl | ⟨rfl, htruthy⟩) (hin | ⟨hne, x, hx, hxt⟩)
      · exact Or.inl hin
      · exact Or.inr ⟨hne, x, List.mem_cons_of_mem e hx, hxt⟩
      · rcases List.mem_append.mp hin with hin2 | hin2
        · exact Or.inl hin2
        · obtain ⟨s, hs, hsne⟩ := (strTruthy_iff e.page_title).mp htruthy
          have hts : t = strVal e.page_title := List.mem_singleton.mp hin2
          refine Or.inr ⟨?_, e, List.mem_cons_self e rest, ?_⟩
          · rw [hts, hs]
            exact hsne
          · rw [hts, hs]
            rfl
      · exact Or.inr ⟨hne, x, List.mem_cons_of_mem e hx, hxt⟩
    by_cases hcond : strTruthy e.page_title ∧ strVal e.page_title ∉ acc
    · rw [if_pos hcond] at ht
      split at ht
      · exact hstep _ (Or.inr ⟨rfl, hcond.1⟩) (Or.inl ht)
      · exact hstep _ (Or.inr ⟨rfl, hcond.1⟩) (ih _ t ht)
    · rw [if_neg hcond] at ht
      split at ht
      · exact hstep acc (Or.inl rfl) (Or.inl ht)
      · exact hstep acc (Or.inl rfl) (ih _ t ht)

theorem withTrailingPeriod_suffix (s : PyStr) : (".".data) <:+ withTrailingPeriod s := by
  unfold withTrailingPeriod
  cases hsuf : (".".data).isSuffixOf s with
  | true =>
    have h := List.isSuffixOf_iff_suffix.mp hsuf
    simpa [hsuf] using h
  | false =>
    simp only [hsuf, Bool.not_false, if_pos]
    exact List.suffix_append _ _

theorem gen_summary_cons_eq (limit : Int) (a : EnrichedEvent) (l : List EnrichedEvent) :
    generateEventsSummary limit (a :: l) =
      withTrailingPeriod (List.intercalate (". ".data)
        (if summaryParts limit (a :: l) = [] then [("No significant activity".data)]
         else summaryParts limit (a :: l))) := rfl

/-- Claim C7 (amended): `generate_events_summary` returns the literal
`No activity recorded` (with no trailing period) on an empty list;
otherwise it joins with `. ` the fragments of `summaryParts` — the
whole `Viewed ...` fragment, not just its including-clause, is omitted
when there is no unique non-empty page title — falls back to
`No significant activity.` when no fragment applies, and guarantees the
trailing period; the unique titles are pairwise distinct, non-empty,
drawn from the pageview events, and at most `pages_in_summary_limit`
many. -/
theorem events_summary_shape (limit : Int) (events : List EnrichedEvent) :
    (events = [] → generateEventsSummary limit events = ("No activity recorded".data)) ∧
    (events ≠ [] → (".".data) <:+ generateEventsSummary limit events) ∧
    (events ≠ [] → summaryParts limit events = [] →
      generateEventsSummary limit events = ("No significant activity.".data)) ∧
    (events ≠ [] → summaryParts limit events ≠ [] →
      generateEventsSummary limit events =
        withTrailingPeriod (List.intercalate (". ".data) (summaryParts limit events))) ∧
    (1 ≤ limit → ((uniquePagesOf limit events).length : Int) ≤ limit) ∧
    (uniquePagesOf limit events).Nodup ∧
    (∀ t ∈ uniquePagesOf limit events, t ≠ [] ∧ ∃ e ∈ pageViewsOf events, e.page_title = some t) := by
  refine ⟨?_, ?_, ?_, ?_, ?_, ?_, ?_⟩
  · intro h
    subst h
    rfl
  · intro hne
    cases events with
    | nil => exact absurd rfl hne
    | cons a l =>
      rw [gen_summary_cons_eq]
      exact withTrailingPeriod_suffix _
  · intro hne hparts
    cases events with
    | nil => exact absurd rfl hne
    | cons a l =>
      rw [gen_summary_cons_eq, if_pos hparts]
      decide
  · intro hne hparts
    cases events with
    | nil => exact absurd rfl hne
    | cons a l =>
      rw [gen_summary_cons_eq, if_neg hparts]
  · intro hlim
    exact collectUniquePages_le limit (pageViewsOf events) [] (by simpa using hlim)
  · exact collectUniquePages_nodup limit (pageViewsOf events) [] (List.nodup_nil)
  · intro t ht
    rcases collectUniquePages_mem limit (pageViewsOf events) [] t ht with hin | hok
    · cases hin
    · exact hok

/-- Witness for the summary shape at a single titled pageview. -/
theorem events_summary_shape_witness :
    (".".data) <:+ generateEventsSummary 3 [titledPageview] ∧
    ((uniquePagesOf 3 [titledPageview]).length : Int) ≤ 3 ∧
    generateEventsSummary 3 [titledPageview] = ("Viewed 1 pages including Home.".data) := by
  have h := events_summary_shape 3 [titledPageview]
  exact ⟨h.2.1 (by decide), h.2.2.2.2.1 (by decide), by decide⟩

/-- Counterexample for claim C7 as stated: a single pageview with a null
title produces `No significant activity.` — the code omits the whole
`Viewed ...` fragment, not just its including-clause — and the empty
input yields `No activity recorded` with no trailing period, refuting
the always-ends-with-a-period part. -/
theorem events_summary_counterexample :
    generateEventsSummary 3 [untitledPageview] = ("No significant activity.".data) ∧
    generateEventsSummary 3 [] = ("No activity recorded".data) ∧
    ¬ ((".".data) <:+ generateEventsSummary 3 []) := by
  refine ⟨by decide, by decide, by decide⟩

theorem getOrCreateSession_raws (st : DBState) (event : RawEvent) :
    (getOrCreateSession st event).1.raws = st.raws := by
  unfold getOrCreateSession
  rcases h : findSession st.sessions (strVal event.sessionId) with _ | s <;> simp [h]

/-- Claim C1, behaviour at the code: when `process_single_event`
completes without exception, the raw rows of the new state are exactly
the old ones with the status of the processed row set to DONE; in
particular `processed_at` is carried over unchanged from the old row
(the UPDATE of `update_raw_event_status` writes only the status column),
so a claimed row keeps `processed_at = null` even when DONE. -/
theorem done_without_processed_at (enrichFn : EnrichFn) (st : DBState) (event : RawEvent)
    (st2 : DBState) (h : processSingleEvent enrichFn st event = Except.ok st2) :
    st2.raws = updateRawEventStatus st.raws event.raw_event_id RawStatus.done ∧
    ∀ r2 ∈ st2.raws, ∃ r1 ∈ st.raws,
      r1.raw_event_id = r2.raw_event_id ∧ r2.processed_at = r1.processed_at := by
  have hid : st2.raws = updateRawEventStatus st.raws event.raw_event_id RawStatus.done := by
    unfold processSingleEvent at h
    by_cases hs : strTruthy event.sessionId
    · rw [hs] at h
      simp only [Bool.not_true, Bool.false_eq_true, if_false] at h
      injection h with h2
      rw [← h2]
      simp only [markEventAsDone, updateSessionActivity, createEnrichedEvent]
      rw [getOrCreateSession_raws]
    · rw [Bool.not_eq_true] at hs
      rw [hs] at h
      simp only [Bool.not_false, if_true] at h
      cases h
  refine ⟨hid, ?_⟩
  intro r2 hr2
  rw [hid] at hr2
  unfold updateRawEventStatus at hr2
  obtain ⟨r1, hr1, hfn⟩ := List.mem_map.mp hr2
  refine ⟨r1, hr1, ?_⟩
  by_cases hide : r1.raw_event_id = event.raw_event_id
  · rw [if_pos hide] at hfn
    rw [← hfn]
    exact ⟨rfl, rfl⟩
  · rw [if_neg hide] at hfn
    rw [← hfn]
    exact ⟨rfl, rfl⟩

/-- Witness for C1 at the S1-style happy path: the pipeline succeeds,
the raw row ends DONE, and its `processed_at` is still null. -/
theorem done_without_processed_at_witness :
    processSingleEvent samplePageviewEnrich initialState rawPageviewEvent = Except.ok doneState ∧
    doneState.raws = updateRawEventStatus initialState.raws rawPageviewEvent.raw_event_id RawStatus.done ∧
    (∀ r2 ∈ doneState.raws, ∃ r1 ∈ initialState.raws,
      r1.raw_event_id = r2.raw_event_id ∧ r2.processed_at = r1.processed_at) ∧
    (∀ r ∈ doneState.raws, r.raw_event_id = rawPageviewEvent.raw_event_id →
      r.status = RawStatus.done ∧ r.processed_at = none) := by
  have hok : processSingleEvent samplePageviewEnrich initialState rawPageviewEvent =
      Except.ok doneState := rfl
  have h := done_without_processed_at samplePageviewEnrich initialState rawPageviewEvent
    doneState hok
  exact ⟨hok, h.1, h.2, by decide⟩

/-- Claim C2: a raw event whose properties hold no `$session_id` makes
`process_single_event` raise before any insert (the transaction sees no
write), and `process_with_semaphore` then marks the row FAILED on the
pre-call state and swallows the error: no enriched row and no session
row are created. -/
theorem missing_session_marks_failed (enrichFn : EnrichFn) (st : DBState) (event : RawEvent)
    (h : event.sessionId = none) :
    processSingleEvent enrichFn st event = Except.error PipelineError.missingSession ∧
    (processWithSemaphore enrichFn st event).enriched = st.enriched ∧
    (processWithSemaphore enrichFn st event).sessions = st.sessions ∧
    (processWithSemaphore enrichFn st event).raws =
      updateRawEventStatus st.raws event.raw_event_id RawStatus.failed := by
  have herr : processSingleEvent enrichFn st event = Except.error PipelineError.missingSession := by
    unfold processSingleEvent
    rw [h]
    rfl
  have hsem : processWithSemaphore enrichFn st event =
      markEventAsFailed st event.raw_event_id := by
    unfold processWithSemaphore
    rw [herr]
  rw [hsem]
  exact ⟨herr, rfl, rfl, rfl⟩

/-- Witness for C2 at the concrete scenario-S3 event (empty properties):
the raw row moves to FAILED, the other row is untouched, and no enriched
or session rows exist. -/
theorem missing_session_marks_failed_witness :
    rawNoSessionEvent.sessionId = none ∧
    processSingleEvent samplePageviewEnrich initialState rawNoSessionEvent =
      Except.error PipelineError.missingSession ∧
    (processWithSemaphore samplePageviewEnrich initialState rawNoSessionEvent).enriched = [] ∧
    (processWithSemaphore samplePageviewEnrich initialState rawNoSessionEvent).sessions = [] ∧
    (∀ r ∈ (processWithSemaphore samplePageviewEnrich initialState rawNoSessionEvent).raws,
      (r.raw_event_id = rawNoSessionEvent.raw_event_id → r.status = RawStatus.failed) ∧
      (r.raw_event_id ≠ rawNoSessionEvent.raw_event_id → r.status = RawStatus.pending)) := by
  have h := missing_session_marks_failed samplePageviewEnrich initialState rawNoSessionEvent
    (by decide)
  exact ⟨by decide, h.1, by decide, by decide, by decide⟩

end PSI
